import Mathlib

/-!
Shallow embedding of the PUCCH resource manager and PUCCH allocator of
`lib/scheduler/pucch_scheduling/pucch_allocator_impl.h` (srsRAN project).

The data model (ring buffer of per-slot records, capacities, signatures) is
taken from the header, which is part of the available sources.  The bodies of
the member functions are not among the available sources (only their
declarations and doc comments are), so each operation is modelled from the
specification's description of its behaviour; every such definition carries a
doc comment starting with `Modelled from the spec:`.

Slots are modelled as natural numbers (`slot_point` is a monotonically
increasing time index; the spec assumes a bounded comparison horizon, so no
wraparound arithmetic is needed for the properties below).  Pointers into the
static PUCCH configuration are modelled as `Option` over opaque resource
identifiers: `none` is the C++ `nullptr` sentinel.
-/

namespace srsgnb

/-- Maximum number of HARQ PUCCH resources trackable per slot record
(capacity of the `static_vector` of RNTIs in the header). -/
def MAX_HARQ_PUCCH_RESOURCES : Nat := 8

/-- Size of the ring buffer of per-slot records in the PUCCH resource
manager (from the header). -/
def RES_MANAGER_RING_BUFFER_SIZE : Nat := 20

/-- Opaque handle to one PUCCH resource of the static configuration.  The
C++ code passes `const pucch_resource*`; the identity of the configuration
entry is all that matters here. -/
abbrev pucch_resource := Nat

/-- RNTI: the identity of a terminal (UE). -/
abbrev rnti_t := Nat

/-- The slice of the UE's PUCCH configuration the resource manager reads:
the ordered list of dedicated HARQ resources (indexed by the PUCCH resource
indicator) and the single SR resource. -/
structure pucch_config where
  harq_res_list : List pucch_resource
  sr_res : pucch_resource
deriving DecidableEq, Repr

/-- Record for the RNTI and PUCCH resource indicator used for a given
resource at a given slot (`rnti_pucch_res_id_slot_record` in the header):
whether the SR resource is still available, the next HARQ resource index to
hand out, and the RNTIs holding each HARQ resource indicator. -/
structure rnti_pucch_res_id_slot_record where
  sr_resource_available : Bool := true
  next_pucch_harq_res_idx : Nat := 0
  rnti_records : List rnti_t := []
deriving DecidableEq, Repr

/-- Output container of `get_next_harq_res_available` (from the header):
a (possibly null) pointer to the PUCCH resource configuration and the PUCCH
resource indicator, which is to be ignored when the pointer is null. -/
structure pucch_harq_resource_alloc_record where
  pucch_res : Option pucch_resource
  pucch_res_indicator : Nat
deriving DecidableEq, Repr

/-- State of the PUCCH resource manager (from the header): a ring buffer of
`RES_MANAGER_RING_BUFFER_SIZE` slot records plus the last observed slot. -/
structure pucch_resource_manager where
  resource_slots : List rnti_pucch_res_id_slot_record :=
    List.replicate RES_MANAGER_RING_BUFFER_SIZE {}
  last_sl_ind : Nat := 0
deriving DecidableEq, Repr

/-- Initial state of the resource manager: all ring records empty, last
observed slot 0. -/
def init_manager : pucch_resource_manager := {}

/-- Returns the resource manager allocation record for a given slot: the ring
entry at index `sl % RES_MANAGER_RING_BUFFER_SIZE` (from the header's
`get_slot_resource_counter`). -/
def get_slot_resource_counter (m : pucch_resource_manager) (sl : Nat) :
    rnti_pucch_res_id_slot_record :=
  m.resource_slots.getD (sl % RES_MANAGER_RING_BUFFER_SIZE) {}

/-- Helper for `slot_indication`: reset the ring positions of the `n` slots
`last+1, ..., last+n` to the empty record. -/
def reset_from (slots : List rnti_pucch_res_id_slot_record) (last : Nat) :
    Nat → List rnti_pucch_res_id_slot_record
  | 0 => slots
  | n + 1 => (reset_from slots last n).set ((last + (n + 1)) % RES_MANAGER_RING_BUFFER_SIZE) {}

/-- Modelled from the spec: the body of
`pucch_resource_manager::slot_indication` is not among the available sources
(the header only declares it).  Spec §4.1 `advance(slot)`: "For every ring
position from the last observed slot (exclusive) up to and including the new
slot, reset that position's Reservation Record to its empty state"; calling
it with a slot equal to the last observed one is a no-op, and calling it with
an older slot is a caller-contract violation (an assertion-style fatal
condition, modelled as `none`). -/
def slot_indication (m : pucch_resource_manager) (slot_tx : Nat) :
    Option pucch_resource_manager :=
  if slot_tx < m.last_sl_ind then none
  else some { resource_slots := reset_from m.resource_slots m.last_sl_ind (slot_tx - m.last_sl_ind),
              last_sl_ind := slot_tx }

/-- Modelled from the spec: the body of
`pucch_resource_manager::get_next_harq_res_available` is not among the
available sources.  Spec §4.1 `reserve_harq(slot, terminal, config)`: look up
the record for the slot; if the acknowledgement-resource counter has reached
the configured maximum, fail (no state mutation); otherwise assign the
current counter value as the resource indicator, map it to a resource via the
terminal's static configuration, record the terminal against that indicator,
increment the counter, and return the (resource, indicator) pair.  Failure is
the header's null-pointer sentinel. -/
def get_next_harq_res_available (m : pucch_resource_manager) (slot_harq : Nat)
    (crnti : rnti_t) (pucch_cfg : pucch_config) :
    pucch_harq_resource_alloc_record × pucch_resource_manager :=
  let r := get_slot_resource_counter m slot_harq
  if r.next_pucch_harq_res_idx < MAX_HARQ_PUCCH_RESOURCES then
    match pucch_cfg.harq_res_list[r.next_pucch_harq_res_idx]? with
    | some res =>
        let updated : rnti_pucch_res_id_slot_record :=
          { r with next_pucch_harq_res_idx := r.next_pucch_harq_res_idx + 1,
                   rnti_records := r.rnti_records ++ [crnti] }
        let slots := m.resource_slots.set (slot_harq % RES_MANAGER_RING_BUFFER_SIZE) updated
        (⟨some res, r.next_pucch_harq_res_idx⟩, { m with resource_slots := slots })
    | none => (⟨none, 0⟩, m)
  else (⟨none, 0⟩, m)

/-- Modelled from the spec: the body of
`pucch_resource_manager::get_next_sr_res_available` is not among the
available sources.  Spec §4.1 `reserve_sr(slot, config)`: if the single
scheduling-request resource for that slot is marked available, mark it
unavailable and return its resource identifier; otherwise fail (null pointer,
no state mutation). -/
def get_next_sr_res_available (m : pucch_resource_manager) (slot_sr : Nat)
    (pucch_cfg : pucch_config) : Option pucch_resource × pucch_resource_manager :=
  let r := get_slot_resource_counter m slot_sr
  if r.sr_resource_available then
    let updated : rnti_pucch_res_id_slot_record := { r with sr_resource_available := false }
    let slots := m.resource_slots.set (slot_sr % RES_MANAGER_RING_BUFFER_SIZE) updated
    (some pucch_cfg.sr_res, { m with resource_slots := slots })
  else (none, m)

/-- Modelled from the spec: the body of
`pucch_resource_manager::get_pucch_res_indicator` is not among the available
sources.  Spec §4.1 `lookup_indicator(slot, terminal)`: linear scan of the
slot's terminal list; returns the indicator, or -1 if the RNTI is not present
(per the header's doc comment). -/
def get_pucch_res_indicator (m : pucch_resource_manager) (slot_tx : Nat)
    (crnti : rnti_t) : Int :=
  match (get_slot_resource_counter m slot_tx).rnti_records.findIdx?
      (fun r => r == crnti) with
  | some i => (i : Int)
  | none => -1

/-- A PUCCH grant written on the per-slot resource grid: the owning RNTI, the
PUCCH resource it occupies, and its UCI bit accounting (HARQ-ACK bit count and
SR bit count). -/
structure pucch_info where
  crnti : rnti_t
  pucch_res : pucch_resource
  harq_ack_bits : Nat
  sr_bits : Nat
deriving DecidableEq, Repr

/-- UCI bit counts reported by `remove_ue_uci_from_pucch`. -/
structure pucch_uci_bits where
  harq_ack_nof_bits : Nat := 0
  sr_bits : Nat := 0
deriving DecidableEq, Repr

/-- The slot's grid of PUCCH grants (the `pucchs` list of the slot's
`cell_slot_resource_allocator` result). -/
abbrev pucch_grid := List pucch_info

/-- Modelled from the spec: the body of
`pucch_allocator_impl::alloc_ded_pucch_harq_ack_ue` is not among the
available sources.  Spec §4.2(2): compute the target slot; if the terminal
already has a grant in that slot (acknowledgement and/or scheduling-request),
merge by updating the existing grant's bit-width accounting rather than
creating a second resource occupancy — per the protocol rule of §3, when both
are due in the same slot they share one resource and the acknowledgement
format governs, so merging into a scheduling-request-only grant moves the
grant onto an acknowledgement resource obtained from the resource manager.
Otherwise request a new resource from the resource manager; on success, write
it onto the grid; on exhaustion, report no-resource-available without
mutating anything. -/
def alloc_ded_pucch_harq_ack_ue (grid : pucch_grid) (m : pucch_resource_manager)
    (sl : Nat) (crnti : rnti_t) (pucch_cfg : pucch_config) :
    Option pucch_resource × pucch_grid × pucch_resource_manager :=
  match grid.find? (fun g => g.crnti == crnti) with
  | some g =>
    if 0 < g.harq_ack_bits then
      -- Existing HARQ-ACK grant: update its bit accounting in place.
      let grid1 := grid.map (fun x =>
        if x.crnti == crnti then { x with harq_ack_bits := x.harq_ack_bits + 1 } else x)
      (some g.pucch_res, grid1, m)
    else
      -- Existing SR-only grant: the acknowledgement format governs the shared
      -- resource, so reserve a HARQ resource and move the grant onto it.
      match get_next_harq_res_available m sl crnti pucch_cfg with
      | (⟨some res, _⟩, m1) =>
        let grid1 := grid.map (fun x =>
          if x.crnti == crnti then
            { crnti := crnti, pucch_res := res, harq_ack_bits := x.harq_ack_bits + 1,
              sr_bits := x.sr_bits }
          else x)
        (some res, grid1, m1)
      | (⟨none, _⟩, _) => (none, grid, m)
  | none =>
      match get_next_harq_res_available m sl crnti pucch_cfg with
      | (⟨some res, _⟩, m1) =>
        (some res, grid ++ [⟨crnti, res, 1, 0⟩], m1)
      | (⟨none, _⟩, _) => (none, grid, m)

/-- Modelled from the spec: the body of
`pucch_allocator_impl::pucch_allocate_sr_opportunity` is not among the
available sources.  Spec §4.2(3): look up whether the terminal already holds
an acknowledgement grant in the slot; if so, merge (increase the resource's
bit-width accounting, no new grid occupancy); otherwise request the
scheduling-request resource from the resource manager and, on success, write
a new grant; on failure, leave everything as it was. -/
def pucch_allocate_sr_opportunity (grid : pucch_grid) (m : pucch_resource_manager)
    (sl : Nat) (crnti : rnti_t) (pucch_cfg : pucch_config) :
    pucch_grid × pucch_resource_manager :=
  match grid.find? (fun g => g.crnti == crnti && g.harq_ack_bits != 0) with
  | some _ =>
    let grid1 := grid.map (fun x =>
      if x.crnti == crnti then { x with sr_bits := 1 } else x)
    (grid1, m)
  | none =>
    match get_next_sr_res_available m sl pucch_cfg with
    | (some res, m1) => (grid ++ [⟨crnti, res, 0, 1⟩], m1)
    | (none, _) => (grid, m)

/-- Modelled from the spec: the body of
`pucch_allocator_impl::remove_ue_uci_from_pucch` is not among the available
sources.  Spec §4.2(4): given a terminal and slot, locate and remove its
control-channel occupancy from the grid and report the
uplink-control-information bit counts that were associated with it. -/
def remove_ue_uci_from_pucch (grid : pucch_grid) (crnti : rnti_t) :
    pucch_grid × pucch_uci_bits :=
  match grid.find? (fun g => g.crnti == crnti) with
  | some g => (grid.filter (fun x => x.crnti != crnti), ⟨g.harq_ack_bits, g.sr_bits⟩)
  | none => (grid, ⟨0, 0⟩)

/-! ### Sample data used by concrete scenarios and witnesses -/

/-- A sample UE PUCCH configuration with eight dedicated HARQ resources and
one SR resource. -/
def sample_cfg : pucch_config := ⟨[100, 101, 102, 103, 104, 105, 106, 107], 200⟩

/-- A slot record whose HARQ counter has reached the maximum. -/
def sample_full_record : rnti_pucch_res_id_slot_record := ⟨true, 8, [1, 2, 3, 4, 5, 6, 7, 8]⟩

/-- A manager state in which every slot's HARQ pool is exhausted. -/
def exhausted_manager : pucch_resource_manager :=
  ⟨List.replicate RES_MANAGER_RING_BUFFER_SIZE sample_full_record, 0⟩

/-- Fold `slot_indication` over a list of slots (the per-slot advance calls
issued by the owning layer), propagating the contract-violation outcome. -/
def advance_through (m : pucch_resource_manager) : List Nat → Option pucch_resource_manager
  | [] => some m
  | s :: rest =>
    match slot_indication m s with
    | some m1 => advance_through m1 rest
    | none => none

/-! ### Helper lemmas about list access -/

theorem list_getD_set_self {α : Type} (l : List α) (i : Nat) (a d : α) (h : i < l.length) :
    (l.set i a).getD i d = a := by
  simp [List.getD_eq_getElem?_getD, List.getElem?_set_self, h]

theorem list_getD_set_ne {α : Type} (l : List α) (i j : Nat) (a d : α) (h : i ≠ j) :
    (l.set i a).getD j d = l.getD j d := by
  simp [List.getD_eq_getElem?_getD, List.getElem?_set_ne, h]

theorem list_getD_replicate {α : Type} (n i : Nat) (a d : α) (h : d = a) :
    (List.replicate n a).getD i d = a := by
  subst h
  rcases Nat.lt_or_ge i n with hi | hi
  · simp [List.getD_eq_getElem?_getD, List.getElem?_replicate, hi]
  · simp [List.getD_eq_getElem?_getD, List.getElem?_replicate, Nat.not_lt.mpr hi]

/-! ### Characterisation lemmas for the resource manager operations -/

/-- The slot record of the initial manager state is empty for every slot. -/
theorem get_slot_resource_counter_init (sl : Nat) :
    get_slot_resource_counter init_manager sl = {} := by
  simp [get_slot_resource_counter, init_manager, pucch_resource_manager.resource_slots,
    list_getD_replicate]

/-- Successful HARQ reservation, fully characterised. -/
theorem get_next_harq_succ (m : pucch_resource_manager) (sl : Nat) (c : rnti_t)
    (cfg : pucch_config) (res : pucch_resource)
    (hlt : (get_slot_resource_counter m sl).next_pucch_harq_res_idx < MAX_HARQ_PUCCH_RESOURCES)
    (hres : cfg.harq_res_list[(get_slot_resource_counter m sl).next_pucch_harq_res_idx]? =
      some res) :
    get_next_harq_res_available m sl c cfg =
      (⟨some res, (get_slot_resource_counter m sl).next_pucch_harq_res_idx⟩,
       ⟨m.resource_slots.set (sl % RES_MANAGER_RING_BUFFER_SIZE)
          ⟨(get_slot_resource_counter m sl).sr_resource_available,
           (get_slot_resource_counter m sl).next_pucch_harq_res_idx + 1,
           (get_slot_resource_counter m sl).rnti_records ++ [c]⟩,
        m.last_sl_ind⟩) := by
  simp [get_next_harq_res_available, hlt, hres]

/-- HARQ reservation fails without mutating state when the counter has
reached the maximum. -/
theorem get_next_harq_fail_of_max (m : pucch_resource_manager) (sl : Nat) (c : rnti_t)
    (cfg : pucch_config)
    (h : ¬ (get_slot_resource_counter m sl).next_pucch_harq_res_idx < MAX_HARQ_PUCCH_RESOURCES) :
    get_next_harq_res_available m sl c cfg = (⟨none, 0⟩, m) := by
  simp [get_next_harq_res_available, h]

/-- HARQ reservation fails without mutating state when the counter is off
the end of the terminal's configured resource list. -/
theorem get_next_harq_fail_of_cfg (m : pucch_resource_manager) (sl : Nat) (c : rnti_t)
    (cfg : pucch_config)
    (h : cfg.harq_res_list[(get_slot_resource_counter m sl).next_pucch_harq_res_idx]? = none) :
    get_next_harq_res_available m sl c cfg = (⟨none, 0⟩, m) := by
  simp [get_next_harq_res_available, h]

/-- A successful HARQ reservation returns the slot record's current counter
value as the PUCCH resource indicator. -/
theorem get_next_harq_succ_indicator (m : pucch_resource_manager) (sl : Nat) (c : rnti_t)
    (cfg : pucch_config) (res : pucch_resource) (i : Nat) (m1 : pucch_resource_manager)
    (h : get_next_harq_res_available m sl c cfg = (⟨some res, i⟩, m1)) :
    i = (get_slot_resource_counter m sl).next_pucch_harq_res_idx := by
  by_cases hlt :
      (get_slot_resource_counter m sl).next_pucch_harq_res_idx < MAX_HARQ_PUCCH_RESOURCES
  · cases hres : cfg.harq_res_list[(get_slot_resource_counter m sl).next_pucch_harq_res_idx]? with
    | none =>
      rw [get_next_harq_fail_of_cfg m sl c cfg hres] at h
      simp at h
    | some res2 =>
      rw [get_next_harq_succ m sl c cfg res2 hlt hres] at h
      have h1 := congrArg (fun x => x.1.pucch_res_indicator) h
      simpa using h1.symm
  · rw [get_next_harq_fail_of_max m sl c cfg hlt] at h
    simp at h

/-- Successful SR reservation, fully characterised. -/
theorem get_next_sr_succ (m : pucch_resource_manager) (sl : Nat) (cfg : pucch_config)
    (hav : (get_slot_resource_counter m sl).sr_resource_available = true) :
    get_next_sr_res_available m sl cfg =
      (some cfg.sr_res,
       ⟨m.resource_slots.set (sl % RES_MANAGER_RING_BUFFER_SIZE)
          ⟨false, (get_slot_resource_counter m sl).next_pucch_harq_res_idx,
           (get_slot_resource_counter m sl).rnti_records⟩,
        m.last_sl_ind⟩) := by
  simp [get_next_sr_res_available, hav]

/-- SR reservation fails without mutating state when the SR resource is
already taken. -/
theorem get_next_sr_fail (m : pucch_resource_manager) (sl : Nat) (cfg : pucch_config)
    (hav : (get_slot_resource_counter m sl).sr_resource_available = false) :
    get_next_sr_res_available m sl cfg = (none, m) := by
  simp [get_next_sr_res_available, hav]

/-! ### Claim theorems -/

/-- C8: calling `slot_indication` with a slot equal to the last observed slot
is a no-op on the resource manager's state, and calling it with a slot older
than the last observed slot is a caller-contract violation surfaced as the
non-recoverable (assertion-style) outcome, not a recoverable result. -/
theorem slot_indication_noop_at_current_and_fatal_backward
    (m : pucch_resource_manager) (sl : Nat) :
    slot_indication m m.last_sl_ind = some m ∧
    (sl < m.last_sl_ind → slot_indication m sl = none) := by
  constructor
  · simp [slot_indication, reset_from, Nat.sub_self]
  · intro h
    simp [slot_indication, h]

/-- Witness for C8 at a concrete state: advancing to the current slot 5 is a
no-op and advancing backward to slot 3 is the fatal outcome. -/
theorem slot_indication_noop_at_current_and_fatal_backward_witness :
    slot_indication ⟨List.replicate 20 {}, 5⟩ 5 = some ⟨List.replicate 20 {}, 5⟩ ∧
    slot_indication ⟨List.replicate 20 {}, 5⟩ 3 = none := by
  have h := slot_indication_noop_at_current_and_fatal_backward ⟨List.replicate 20 {}, 5⟩ 3
  exact ⟨h.1, h.2 (by decide)⟩

/-- C6: for every slot, the first `get_next_sr_res_available` call succeeds
when the single scheduling-request resource is available, marking it
unavailable and returning its resource configuration, and a second call in
the same slot with no intervening `slot_indication` fails with the
unavailable result and no state change. -/
theorem sr_first_reserve_succeeds_second_fails (m : pucch_resource_manager)
    (sl : Nat) (cfg : pucch_config)
    (h20 : m.resource_slots.length = RES_MANAGER_RING_BUFFER_SIZE)
    (hav : (get_slot_resource_counter m sl).sr_resource_available = true) :
    ∃ m1 : pucch_resource_manager,
      get_next_sr_res_available m sl cfg = (some cfg.sr_res, m1) ∧
      (get_slot_resource_counter m1 sl).sr_resource_available = false ∧
      get_next_sr_res_available m1 sl cfg = (none, m1) := by
  have hidx : sl % RES_MANAGER_RING_BUFFER_SIZE < m.resource_slots.length := by
    rw [h20]
    exact Nat.mod_lt _ (by decide)
  rw [get_next_sr_succ m sl cfg hav]
  refine ⟨_, rfl, ?_, ?_⟩
  · unfold get_slot_resource_counter
    rw [list_getD_set_self _ _ _ _ hidx]
  · apply get_next_sr_fail
    unfold get_slot_resource_counter
    rw [list_getD_set_self _ _ _ _ hidx]

/-- Witness for C6: concrete first and second SR reservation at slot 3 from
the initial state. -/
theorem sr_first_reserve_succeeds_second_fails_witness :
    init_manager.resource_slots.length = RES_MANAGER_RING_BUFFER_SIZE ∧
    (get_slot_resource_counter init_manager 3).sr_resource_available = true ∧
    ∃ m1 : pucch_resource_manager,
      get_next_sr_res_available init_manager 3 sample_cfg = (some sample_cfg.sr_res, m1) ∧
      (get_slot_resource_counter m1 3).sr_resource_available = false ∧
      get_next_sr_res_available m1 3 sample_cfg = (none, m1) :=
  ⟨by decide, by decide,
   sr_first_reserve_succeeds_second_fails init_manager 3 sample_cfg (by decide) (by decide)⟩

/-- C9 counterexample: the "resource unavailable" outcome of the resource
manager is not a dedicated tagged sum type.  `pucch_harq_resource_alloc_record`
is a record pairing a nullable resource pointer with an indicator field: two
distinct values of the type both denote "unavailable" (a sum type would have a
unique unavailable variant), the indicator field of the unavailable result
coincides with the indicator of a legitimate indicator-0 grant, so only the
null pointer discriminates, and the SR operation's output is a bare nullable
pointer (`none` on exhaustion). -/
theorem alloc_record_is_nullable_pointer_not_sum :
    (⟨none, 0⟩ : pucch_harq_resource_alloc_record) ≠ ⟨none, 1⟩ ∧
    (⟨none, 0⟩ : pucch_harq_resource_alloc_record).pucch_res = none ∧
    (⟨none, 1⟩ : pucch_harq_resource_alloc_record).pucch_res = none ∧
    (get_next_harq_res_available exhausted_manager 0 99 sample_cfg).1 = ⟨none, 0⟩ ∧
    (get_next_harq_res_available init_manager 0 1 sample_cfg).1.pucch_res_indicator =
      (get_next_harq_res_available exhausted_manager 0 99 sample_cfg).1.pucch_res_indicator ∧
    (get_next_sr_res_available
      (get_next_sr_res_available init_manager 0 sample_cfg).2 0 sample_cfg).1 = none := by
  decide

/-- C9 (amended): every resource manager reservation's output is either a
concrete grant or an explicit unavailable sentinel — never a thrown fault —
where the sentinel is the null resource pointer (the HARQ record's pointer
field, the SR result itself), the failed call mutates nothing, and the
sentinel is distinguishable from a successful grant with resource indicator
zero by its null pointer, not by a dedicated tagged sum type. -/
theorem alloc_outputs_are_grant_or_null_sentinel (m : pucch_resource_manager)
    (sl : Nat) (c : rnti_t) (cfg : pucch_config) :
    (((get_next_harq_res_available m sl c cfg).1.pucch_res = none ∧
        (get_next_harq_res_available m sl c cfg).2 = m) ∨
      (∃ res, (get_next_harq_res_available m sl c cfg).1 =
        ⟨some res, (get_slot_resource_counter m sl).next_pucch_harq_res_idx⟩)) ∧
    (((get_next_sr_res_available m sl cfg).1 = none ∧
        (get_next_sr_res_available m sl cfg).2 = m) ∨
      (get_next_sr_res_available m sl cfg).1 = some cfg.sr_res) ∧
    (∀ res : pucch_resource,
      (⟨some res, 0⟩ : pucch_harq_resource_alloc_record) ≠ ⟨none, 0⟩) := by
  refine ⟨?_, ?_, ?_⟩
  · by_cases hlt :
        (get_slot_resource_counter m sl).next_pucch_harq_res_idx < MAX_HARQ_PUCCH_RESOURCES
    · cases hres : cfg.harq_res_list[(get_slot_resource_counter m sl).next_pucch_harq_res_idx]? with
      | none => rw [get_next_harq_fail_of_cfg m sl c cfg hres]; exact Or.inl ⟨rfl, rfl⟩
      | some res => rw [get_next_harq_succ m sl c cfg res hlt hres]; exact Or.inr ⟨res, rfl⟩
    · rw [get_next_harq_fail_of_max m sl c cfg hlt]; exact Or.inl ⟨rfl, rfl⟩
  · cases hav : (get_slot_resource_counter m sl).sr_resource_available with
    | false => rw [get_next_sr_fail m sl cfg hav]; exact Or.inl ⟨rfl, rfl⟩
    | true => rw [get_next_sr_succ m sl cfg hav]; exact Or.inr rfl
  · intro res h
    simp at h

/-- C5: allocating a dedicated HARQ-ACK grant for a terminal with no existing
grant in the slot and then removing it leaves the grid with no PUCCH
occupancy for that terminal (indeed exactly the original grid), and the
removal reports exactly the granted UCI bit counts (one HARQ-ACK bit, no SR
bit). -/
theorem harq_alloc_then_remove_round_trip (grid : pucch_grid)
    (m m1 : pucch_resource_manager) (sl : Nat) (c : rnti_t) (cfg : pucch_config)
    (res : pucch_resource) (grid1 : pucch_grid)
    (hno : ∀ g ∈ grid, g.crnti ≠ c)
    (halloc : alloc_ded_pucch_harq_ack_ue grid m sl c cfg = (some res, grid1, m1)) :
    (remove_ue_uci_from_pucch grid1 c).2 = ⟨1, 0⟩ ∧
    (∀ g ∈ (remove_ue_uci_from_pucch grid1 c).1, g.crnti ≠ c) ∧
    (remove_ue_uci_from_pucch grid1 c).1 = grid := by
  have hfind : grid.find? (fun g => g.crnti == c) = none := by
    rw [List.find?_eq_none]
    intro g hg
    simpa using hno g hg
  have hgrid1 : grid1 = grid ++ [⟨c, res, 1, 0⟩] := by
    revert halloc
    unfold alloc_ded_pucch_harq_ack_ue
    rw [hfind]
    by_cases hlt :
        (get_slot_resource_counter m sl).next_pucch_harq_res_idx < MAX_HARQ_PUCCH_RESOURCES
    · cases hres : cfg.harq_res_list[(get_slot_resource_counter m sl).next_pucch_harq_res_idx]? with
      | none =>
        rw [get_next_harq_fail_of_cfg m sl c cfg hres]
        intro h
        simp at h
      | some res2 =>
        rw [get_next_harq_succ m sl c cfg res2 hlt hres]
        intro h
        have hr : res2 = res := by
          have h1 := congrArg (fun x => x.1) h
          simpa using h1
        have hg : grid ++ [⟨c, res2, 1, 0⟩] = grid1 := by
          have h2 := congrArg (fun x => x.2.1) h
          simpa using h2
        rw [← hg, hr]
    · rw [get_next_harq_fail_of_max m sl c cfg hlt]
      intro h
      simp at h
  have hfind1 : grid1.find? (fun g => g.crnti == c) = some ⟨c, res, 1, 0⟩ := by
    rw [hgrid1, List.find?_append, hfind]
    simp [List.find?]
  have hfilter : grid1.filter (fun x => x.crnti != c) = grid := by
    rw [hgrid1, List.filter_append]
    have h1 : grid.filter (fun x => x.crnti != c) = grid := by
      rw [List.filter_eq_self]
      intro g hg
      simpa using hno g hg
    have h2 : ([⟨c, res, 1, 0⟩] : pucch_grid).filter (fun x => x.crnti != c) = [] := by
      simp
    rw [h1, h2, List.append_nil]
  refine ⟨?_, ?_, ?_⟩
  · unfold remove_ue_uci_from_pucch
    rw [hfind1]
  · unfold remove_ue_uci_from_pucch
    rw [hfind1]
    intro g hg
    rw [hfilter] at hg
    exact hno g hg
  · unfold remove_ue_uci_from_pucch
    rw [hfind1]
    exact hfilter

/-- Issue one HARQ reservation per RNTI in the list, in order, at a fixed
slot, threading the manager state; record for each call whether it succeeded
(whether the returned resource pointer was non-null). -/
def harq_reserve_list : pucch_resource_manager → Nat → pucch_config → List rnti_t →
    List Bool × pucch_resource_manager
  | m, _, _, [] => ([], m)
  | m, sl, cfg, c :: cs =>
    let out := get_next_harq_res_available m sl c cfg
    let rest := harq_reserve_list out.2 sl cfg cs
    (out.1.pucch_res.isSome :: rest.1, rest.2)

/-- A batch of HARQ reservations at one slot all succeed while the counter
stays within both the maximum and the configured resource list; the slot's
record accumulates the RNTIs in order, every other ring record is untouched,
and the last observed slot is unchanged. -/
theorem harq_reserve_list_all_succeed (cs : List rnti_t) (m : pucch_resource_manager)
    (sl : Nat) (cfg : pucch_config)
    (h20 : m.resource_slots.length = RES_MANAGER_RING_BUFFER_SIZE)
    (hmax : (get_slot_resource_counter m sl).next_pucch_harq_res_idx + cs.length ≤
      MAX_HARQ_PUCCH_RESOURCES)
    (hcfg : (get_slot_resource_counter m sl).next_pucch_harq_res_idx + cs.length ≤
      cfg.harq_res_list.length) :
    (harq_reserve_list m sl cfg cs).1 = List.replicate cs.length true ∧
    (harq_reserve_list m sl cfg cs).2.resource_slots.length = RES_MANAGER_RING_BUFFER_SIZE ∧
    get_slot_resource_counter (harq_reserve_list m sl cfg cs).2 sl =
      ⟨(get_slot_resource_counter m sl).sr_resource_available,
       (get_slot_resource_counter m sl).next_pucch_harq_res_idx + cs.length,
       (get_slot_resource_counter m sl).rnti_records ++ cs⟩ ∧
    (∀ sl2, sl2 % RES_MANAGER_RING_BUFFER_SIZE ≠ sl % RES_MANAGER_RING_BUFFER_SIZE →
      get_slot_resource_counter (harq_reserve_list m sl cfg cs).2 sl2 =
        get_slot_resource_counter m sl2) ∧
    (harq_reserve_list m sl cfg cs).2.last_sl_ind = m.last_sl_ind := by
  induction cs generalizing m with
  | nil =>
    refine ⟨rfl, h20, ?_, fun sl2 _ => rfl, rfl⟩
    simp [harq_reserve_list]
  | cons c cs ih =>
    have hidx : sl % RES_MANAGER_RING_BUFFER_SIZE < m.resource_slots.length := by
      rw [h20]
      exact Nat.mod_lt _ (by decide)
    have hlt : (get_slot_resource_counter m sl).next_pucch_harq_res_idx <
        MAX_HARQ_PUCCH_RESOURCES := by
      have := hmax
      simp only [List.length_cons] at this
      omega
    have hltc : (get_slot_resource_counter m sl).next_pucch_harq_res_idx <
        cfg.harq_res_list.length := by
      have := hcfg
      simp only [List.length_cons] at this
      omega
    have hres : cfg.harq_res_list[(get_slot_resource_counter m sl).next_pucch_harq_res_idx]? =
        some (cfg.harq_res_list.get ⟨_, hltc⟩) := by
      rw [List.getElem?_eq_getElem hltc]
      rfl
    have hstep := get_next_harq_succ m sl c cfg _ hlt hres
    set m1 : pucch_resource_manager :=
      ⟨m.resource_slots.set (sl % RES_MANAGER_RING_BUFFER_SIZE)
         ⟨(get_slot_resource_counter m sl).sr_resource_available,
          (get_slot_resource_counter m sl).next_pucch_harq_res_idx + 1,
          (get_slot_resource_counter m sl).rnti_records ++ [c]⟩,
       m.last_sl_ind⟩ with hm1
    have hc1 : get_slot_resource_counter m1 sl =
        ⟨(get_slot_resource_counter m sl).sr_resource_available,
         (get_slot_resource_counter m sl).next_pucch_harq_res_idx + 1,
         (get_slot_resource_counter m sl).rnti_records ++ [c]⟩ := by
      rw [hm1]
      unfold get_slot_resource_counter
      exact list_getD_set_self _ _ _ _ hidx
    have hc2 : ∀ sl2, sl2 % RES_MANAGER_RING_BUFFER_SIZE ≠ sl % RES_MANAGER_RING_BUFFER_SIZE →
        get_slot_resource_counter m1 sl2 = get_slot_resource_counter m sl2 := by
      intro sl2 hne
      rw [hm1]
      unfold get_slot_resource_counter
      exact list_getD_set_ne _ _ _ _ _ (fun hh => hne (hh.symm))
    have h20m1 : m1.resource_slots.length = RES_MANAGER_RING_BUFFER_SIZE := by
      rw [hm1]
      simpa using h20
    have hmax1 : (get_slot_resource_counter m1 sl).next_pucch_harq_res_idx + cs.length ≤
        MAX_HARQ_PUCCH_RESOURCES := by
      rw [hc1]
      dsimp only
      simp only [List.length_cons] at hmax
      omega
    have hcfg1 : (get_slot_resource_counter m1 sl).next_pucch_harq_res_idx + cs.length ≤
        cfg.harq_res_list.length := by
      rw [hc1]
      dsimp only
      simp only [List.length_cons] at hcfg
      omega
    obtain ⟨ih1, ih2, ih3, ih4, ih5⟩ := ih m1 h20m1 hmax1 hcfg1
    have hunf : harq_reserve_list m sl cfg (c :: cs) =
        (true :: (harq_reserve_list m1 sl cfg cs).1, (harq_reserve_list m1 sl cfg cs).2) := by
      show ((get_next_harq_res_available m sl c cfg).1.pucch_res.isSome ::
          (harq_reserve_list (get_next_harq_res_available m sl c cfg).2 sl cfg cs).1,
          (harq_reserve_list (get_next_harq_res_available m sl c cfg).2 sl cfg cs).2) = _
      rw [hstep]
      rfl
    rw [hunf]
    refine ⟨?_, ih2, ?_, ?_, ?_⟩
    · rw [ih1]
      simp [List.replicate]
    · rw [ih3, hc1]
      simp [Nat.add_assoc, Nat.add_comm 1 cs.length]
    · intro sl2 hne
      rw [ih4 sl2 hne, hc2 sl2 hne]
    · exact ih5

/-- C3: with the maximum HARQ resources per slot at 8 and eight configured
resources, reserving HARQ resources for 8 distinct terminals in slot S all
succeed, a 9th reservation attempt in slot S fails and leaves the resource
manager state exactly as it was, and the same terminal set can then be
reserved in slot S+1 independently. -/
theorem harq_exhaustion_eight_then_ninth_fails (S : Nat) (cfg : pucch_config)
    (rs : List rnti_t) (c9 : rnti_t)
    (hcfg : cfg.harq_res_list.length = 8) (hlen : rs.length = 8)
    (_hnd : (c9 :: rs).Nodup) :
    (harq_reserve_list init_manager S cfg rs).1 = List.replicate 8 true ∧
    get_next_harq_res_available (harq_reserve_list init_manager S cfg rs).2 S c9 cfg =
      (⟨none, 0⟩, (harq_reserve_list init_manager S cfg rs).2) ∧
    (harq_reserve_list (harq_reserve_list init_manager S cfg rs).2 (S + 1) cfg rs).1 =
      List.replicate 8 true := by
  have hinitS := get_slot_resource_counter_init S
  have h20 : init_manager.resource_slots.length = RES_MANAGER_RING_BUFFER_SIZE := by decide
  have hmax : (get_slot_resource_counter init_manager S).next_pucch_harq_res_idx + rs.length ≤
      MAX_HARQ_PUCCH_RESOURCES := by
    rw [hinitS, hlen]
    decide
  have hcfg8 : (get_slot_resource_counter init_manager S).next_pucch_harq_res_idx + rs.length ≤
      cfg.harq_res_list.length := by
    rw [hinitS, hlen, hcfg]
  obtain ⟨b1, b2, b3, b4, b5⟩ := harq_reserve_list_all_succeed rs init_manager S cfg h20 hmax hcfg8
  have hfull : (get_slot_resource_counter (harq_reserve_list init_manager S cfg rs).2
      S).next_pucch_harq_res_idx = 8 := by
    rw [b3, hinitS, hlen]
  refine ⟨by rw [b1, hlen], ?_, ?_⟩
  · apply get_next_harq_fail_of_max
    rw [hfull]
    decide
  · have hne : (S + 1) % RES_MANAGER_RING_BUFFER_SIZE ≠ S % RES_MANAGER_RING_BUFFER_SIZE := by
      show (S + 1) % 20 ≠ S % 20
      omega
    have hS1 : get_slot_resource_counter (harq_reserve_list init_manager S cfg rs).2 (S + 1) =
        ({} : rnti_pucch_res_id_slot_record) := by
      rw [b4 (S + 1) hne, get_slot_resource_counter_init]
    have hmax1 : (get_slot_resource_counter (harq_reserve_list init_manager S cfg rs).2
        (S + 1)).next_pucch_harq_res_idx + rs.length ≤ MAX_HARQ_PUCCH_RESOURCES := by
      rw [hS1, hlen]
      decide
    have hcfg1 : (get_slot_resource_counter (harq_reserve_list init_manager S cfg rs).2
        (S + 1)).next_pucch_harq_res_idx + rs.length ≤ cfg.harq_res_list.length := by
      rw [hS1, hlen, hcfg]
    obtain ⟨d1, _, _, _, _⟩ := harq_reserve_list_all_succeed rs
      (harq_reserve_list init_manager S cfg rs).2 (S + 1) cfg b2 hmax1 hcfg1
    rw [d1, hlen]

/-- Witness for C3: slot 0, the sample configuration, terminals 1..8 and a
9th terminal 9. -/
theorem harq_exhaustion_eight_then_ninth_fails_witness :
    sample_cfg.harq_res_list.length = 8 ∧
    ([1, 2, 3, 4, 5, 6, 7, 8] : List rnti_t).length = 8 ∧
    ((9 : rnti_t) :: [1, 2, 3, 4, 5, 6, 7, 8]).Nodup ∧
    ((harq_reserve_list init_manager 0 sample_cfg [1, 2, 3, 4, 5, 6, 7, 8]).1 =
      List.replicate 8 true ∧
    get_next_harq_res_available
        (harq_reserve_list init_manager 0 sample_cfg [1, 2, 3, 4, 5, 6, 7, 8]).2 0 9 sample_cfg =
      (⟨none, 0⟩, (harq_reserve_list init_manager 0 sample_cfg [1, 2, 3, 4, 5, 6, 7, 8]).2) ∧
    (harq_reserve_list (harq_reserve_list init_manager 0 sample_cfg [1, 2, 3, 4, 5, 6, 7, 8]).2
        (0 + 1) sample_cfg [1, 2, 3, 4, 5, 6, 7, 8]).1 = List.replicate 8 true) :=
  ⟨by decide, by decide, by decide,
   harq_exhaustion_eight_then_ninth_fails 0 sample_cfg [1, 2, 3, 4, 5, 6, 7, 8] 9
     (by decide) (by decide) (by decide)⟩

/-- Mapping a conditional per-RNTI update over a grid holding no grant of
that RNTI leaves the grid unchanged. -/
theorem map_update_of_no_crnti (grid : pucch_grid) (c : rnti_t)
    (f : pucch_info → pucch_info) (hno : ∀ g ∈ grid, g.crnti ≠ c) :
    grid.map (fun x => if x.crnti == c then f x else x) = grid := by
  induction grid with
  | nil => rfl
  | cons a l ih =>
    have ha : ¬ ((a.crnti == c) = true) := by simpa using hno a (List.mem_cons_self a l)
    have hl : l.map (fun x => if x.crnti == c then f x else x) = l :=
      ih (fun g hg => hno g (List.mem_cons_of_mem a hg))
    rw [List.map_cons, if_neg ha, hl]

/-- Searching a grid extended by one grant, when the original grid has no
match, inspects only the appended grant. -/
theorem find?_append_singleton_of_none (p : pucch_info → Bool) (grid : pucch_grid)
    (x : pucch_info) (h : grid.find? p = none) :
    (grid ++ [x]).find? p = if p x then some x else none := by
  rw [List.find?_append, h]
  cases hpx : p x
  · simp [List.find?, hpx]
  · simp [List.find?, hpx]

/-- C4: for a terminal with no existing grant in the slot, allocating a
dedicated HARQ-ACK grant and then a scheduling-request opportunity yields
exactly one grid occupancy, and allocating in the reverse order converges to
the same single occupancy with the same combined bit accounting (one HARQ-ACK
bit and one SR bit on the shared resource, the acknowledgement resource
governing the merged grant). -/
theorem harq_sr_merge_order_symmetric (grid : pucch_grid) (m : pucch_resource_manager)
    (sl : Nat) (c : rnti_t) (cfg : pucch_config) (res : pucch_resource)
    (h20 : m.resource_slots.length = RES_MANAGER_RING_BUFFER_SIZE)
    (hno : ∀ g ∈ grid, g.crnti ≠ c)
    (hsr : (get_slot_resource_counter m sl).sr_resource_available = true)
    (hlt : (get_slot_resource_counter m sl).next_pucch_harq_res_idx < MAX_HARQ_PUCCH_RESOURCES)
    (hres : cfg.harq_res_list[(get_slot_resource_counter m sl).next_pucch_harq_res_idx]? =
      some res) :
    (pucch_allocate_sr_opportunity (alloc_ded_pucch_harq_ack_ue grid m sl c cfg).2.1
        (alloc_ded_pucch_harq_ack_ue grid m sl c cfg).2.2 sl c cfg).1 =
      grid ++ [⟨c, res, 1, 1⟩] ∧
    (alloc_ded_pucch_harq_ack_ue (pucch_allocate_sr_opportunity grid m sl c cfg).1
        (pucch_allocate_sr_opportunity grid m sl c cfg).2 sl c cfg).2.1 =
      grid ++ [⟨c, res, 1, 1⟩] ∧
    ((grid ++ ([⟨c, res, 1, 1⟩] : pucch_grid)).filter (fun g => g.crnti == c)).length = 1 ∧
    (∀ g ∈ grid ++ ([⟨c, res, 1, 1⟩] : pucch_grid),
      g.crnti = c → g.harq_ack_bits = 1 ∧ g.sr_bits = 1) := by
  have hidx : sl % RES_MANAGER_RING_BUFFER_SIZE < m.resource_slots.length := by
    rw [h20]
    exact Nat.mod_lt _ (by decide)
  have hfind : grid.find? (fun g => g.crnti == c) = none := by
    rw [List.find?_eq_none]
    intro g hg
    simpa using hno g hg
  have hfindhb : grid.find? (fun g => g.crnti == c && g.harq_ack_bits != 0) = none := by
    rw [List.find?_eq_none]
    intro g hg
    simp [hno g hg]
  have hstep := get_next_harq_succ m sl c cfg res hlt hres
  refine ⟨?_, ?_, ?_, ?_⟩
  · -- Order A: HARQ-ACK first, then SR merges into the existing grant.
    have hA1 : alloc_ded_pucch_harq_ack_ue grid m sl c cfg =
        (some res, grid ++ [⟨c, res, 1, 0⟩],
         ⟨m.resource_slots.set (sl % RES_MANAGER_RING_BUFFER_SIZE)
            ⟨(get_slot_resource_counter m sl).sr_resource_available,
             (get_slot_resource_counter m sl).next_pucch_harq_res_idx + 1,
             (get_slot_resource_counter m sl).rnti_records ++ [c]⟩,
          m.last_sl_ind⟩) := by
      unfold alloc_ded_pucch_harq_ack_ue
      rw [hfind, hstep]
    rw [hA1]
    unfold pucch_allocate_sr_opportunity
    rw [find?_append_singleton_of_none _ _ _ hfindhb]
    have htrue : ((⟨c, res, 1, 0⟩ : pucch_info).crnti == c &&
        (⟨c, res, 1, 0⟩ : pucch_info).harq_ack_bits != 0) = true := by
      simp
    rw [htrue]
    simp only [if_true]
    rw [List.map_append, map_update_of_no_crnti grid c _ hno]
    simp
  · -- Order B: SR first, then the HARQ-ACK allocation merges and moves the
    -- grant onto the acknowledgement resource.
    have hsrstep := get_next_sr_succ m sl cfg hsr
    have hB1 : pucch_allocate_sr_opportunity grid m sl c cfg =
        (grid ++ [⟨c, cfg.sr_res, 0, 1⟩],
         ⟨m.resource_slots.set (sl % RES_MANAGER_RING_BUFFER_SIZE)
            ⟨false, (get_slot_resource_counter m sl).next_pucch_harq_res_idx,
             (get_slot_resource_counter m sl).rnti_records⟩,
          m.last_sl_ind⟩) := by
      unfold pucch_allocate_sr_opportunity
      rw [hfindhb, hsrstep]
    rw [hB1]
    set mB : pucch_resource_manager :=
      ⟨m.resource_slots.set (sl % RES_MANAGER_RING_BUFFER_SIZE)
         ⟨false, (get_slot_resource_counter m sl).next_pucch_harq_res_idx,
          (get_slot_resource_counter m sl).rnti_records⟩,
       m.last_sl_ind⟩ with hmB
    have hcB : get_slot_resource_counter mB sl =
        ⟨false, (get_slot_resource_counter m sl).next_pucch_harq_res_idx,
         (get_slot_resource_counter m sl).rnti_records⟩ := by
      rw [hmB]
      unfold get_slot_resource_counter
      exact list_getD_set_self _ _ _ _ hidx
    have hltB : (get_slot_resource_counter mB sl).next_pucch_harq_res_idx <
        MAX_HARQ_PUCCH_RESOURCES := by
      rw [hcB]
      exact hlt
    have hresB : cfg.harq_res_list[(get_slot_resource_counter mB
        sl).next_pucch_harq_res_idx]? = some res := by
      rw [hcB]
      exact hres
    have hstepB := get_next_harq_succ mB sl c cfg res hltB hresB
    unfold alloc_ded_pucch_harq_ack_ue
    rw [find?_append_singleton_of_none _ _ _ hfind]
    have htrue : ((⟨c, cfg.sr_res, 0, 1⟩ : pucch_info).crnti == c) = true := by simp
    rw [htrue]
    simp only [if_true]
    have hnotlt : ¬ (0 < (⟨c, cfg.sr_res, 0, 1⟩ : pucch_info).harq_ack_bits) := by simp
    rw [if_neg hnotlt, hstepB]
    dsimp only
    rw [List.map_append, map_update_of_no_crnti grid c _ hno]
    simp
  · have h1 : grid.filter (fun g => g.crnti == c) = [] := by
      rw [List.filter_eq_nil_iff]
      intro g hg
      simpa using hno g hg
    rw [List.filter_append, h1]
    simp
  · intro g hg hc
    rcases List.mem_append.mp hg with hg1 | hg2
    · exact absurd hc (hno g hg1)
    · have : g = ⟨c, res, 1, 1⟩ := by simpa using hg2
      rw [this]
      exact ⟨rfl, rfl⟩

/-- Witness for C4: concrete both-order merge for RNTI 1 at slot 4 from the
initial state on an empty grid. -/
theorem harq_sr_merge_order_symmetric_witness :
    init_manager.resource_slots.length = RES_MANAGER_RING_BUFFER_SIZE ∧
    (∀ g ∈ ([] : pucch_grid), g.crnti ≠ 1) ∧
    (get_slot_resource_counter init_manager 4).sr_resource_available = true ∧
    (get_slot_resource_counter init_manager 4).next_pucch_harq_res_idx <
      MAX_HARQ_PUCCH_RESOURCES ∧
    sample_cfg.harq_res_list[(get_slot_resource_counter init_manager
      4).next_pucch_harq_res_idx]? = some 100 ∧
    ((pucch_allocate_sr_opportunity (alloc_ded_pucch_harq_ack_ue [] init_manager 4 1
          sample_cfg).2.1
        (alloc_ded_pucch_harq_ack_ue [] init_manager 4 1 sample_cfg).2.2 4 1 sample_cfg).1 =
      [⟨1, 100, 1, 1⟩] ∧
    (alloc_ded_pucch_harq_ack_ue (pucch_allocate_sr_opportunity [] init_manager 4 1
          sample_cfg).1
        (pucch_allocate_sr_opportunity [] init_manager 4 1 sample_cfg).2 4 1
        sample_cfg).2.1 = [⟨1, 100, 1, 1⟩] ∧
    (([] ++ [⟨1, 100, 1, 1⟩] : pucch_grid).filter (fun g => g.crnti == 1)).length = 1 ∧
    (∀ g ∈ ([] ++ [⟨1, 100, 1, 1⟩] : pucch_grid), g.crnti = 1 →
      g.harq_ack_bits = 1 ∧ g.sr_bits = 1)) := by
  refine ⟨by decide, by simp, by decide, by decide, by decide, ?_⟩
  exact harq_sr_merge_order_symmetric [] init_manager 4 1 sample_cfg 100
    (by decide) (by simp) (by decide) (by decide) (by decide)

/-- Splitting `getD` over `set`: the updated value is read back exactly when
the indices agree and the write was in bounds. -/
theorem getD_set_cases {α : Type} (l : List α) (i j : Nat) (a d : α) :
    (l.set i a).getD j d = if i = j ∧ i < l.length then a else l.getD j d := by
  by_cases hij : i = j
  · by_cases hb : i < l.length
    · subst hij
      rw [if_pos ⟨rfl, hb⟩]
      exact list_getD_set_self l i a d hb
    · rw [if_neg (fun hc => hb hc.2), List.set_eq_of_length_le (Nat.le_of_not_lt hb)]
  · rw [if_neg (fun hc => hij hc.1)]
    exact list_getD_set_ne l i j a d hij

/-- Reading a slot record after overwriting one ring position. -/
theorem counter_set_cases (m : pucch_resource_manager) (sl sl0 : Nat)
    (rec2 : rnti_pucch_res_id_slot_record) :
    get_slot_resource_counter
        ⟨m.resource_slots.set (sl0 % RES_MANAGER_RING_BUFFER_SIZE) rec2, m.last_sl_ind⟩ sl =
      if sl0 % RES_MANAGER_RING_BUFFER_SIZE = sl % RES_MANAGER_RING_BUFFER_SIZE ∧
          sl0 % RES_MANAGER_RING_BUFFER_SIZE < m.resource_slots.length then rec2
      else get_slot_resource_counter m sl := by
  unfold get_slot_resource_counter
  exact getD_set_cases m.resource_slots _ _ rec2 {}

/-- Allocation-only steps of the resource manager: HARQ or SR reservations at
arbitrary slots for arbitrary terminals and configurations, with no
intervening `slot_indication`. -/
inductive alloc_step : pucch_resource_manager → pucch_resource_manager → Prop
  | harq (m : pucch_resource_manager) (sl : Nat) (c : rnti_t) (cfg : pucch_config) :
      alloc_step m (get_next_harq_res_available m sl c cfg).2
  | sr (m : pucch_resource_manager) (sl : Nat) (cfg : pucch_config) :
      alloc_step m (get_next_sr_res_available m sl cfg).2

/-- No allocation-only step ever decreases a slot record's HARQ counter. -/
theorem counter_le_of_alloc_step {m m2 : pucch_resource_manager}
    (h : alloc_step m m2) (sl : Nat) :
    (get_slot_resource_counter m sl).next_pucch_harq_res_idx ≤
      (get_slot_resource_counter m2 sl).next_pucch_harq_res_idx := by
  cases h with
  | harq sl0 c cfg =>
    by_cases hlt :
        (get_slot_resource_counter m sl0).next_pucch_harq_res_idx < MAX_HARQ_PUCCH_RESOURCES
    · cases hres :
          cfg.harq_res_list[(get_slot_resource_counter m sl0).next_pucch_harq_res_idx]? with
      | none =>
        rw [get_next_harq_fail_of_cfg m sl0 c cfg hres]
      | some res =>
        rw [get_next_harq_succ m sl0 c cfg res hlt hres]
        rw [counter_set_cases]
        split
        · next hc =>
          have heq : get_slot_resource_counter m sl = get_slot_resource_counter m sl0 := by
            unfold get_slot_resource_counter
            rw [hc.1]
          rw [heq]
          exact Nat.le_succ _
        · exact Nat.le_refl _
    · rw [get_next_harq_fail_of_max m sl0 c cfg hlt]
  | sr sl0 cfg =>
    cases hav : (get_slot_resource_counter m sl0).sr_resource_available with
    | false =>
      rw [get_next_sr_fail m sl0 cfg hav]
    | true =>
      rw [get_next_sr_succ m sl0 cfg hav]
      rw [counter_set_cases]
      split
      · next hc =>
        have heq : get_slot_resource_counter m sl = get_slot_resource_counter m sl0 := by
          unfold get_slot_resource_counter
          rw [hc.1]
        rw [heq]
      · exact Nat.le_refl _

/-- Along any sequence of allocation-only steps, a slot record's HARQ counter
never decreases. -/
theorem counter_le_of_alloc_steps {m m2 : pucch_resource_manager}
    (h : Relation.ReflTransGen alloc_step m m2) (sl : Nat) :
    (get_slot_resource_counter m sl).next_pucch_harq_res_idx ≤
      (get_slot_resource_counter m2 sl).next_pucch_harq_res_idx := by
  induction h with
  | refl => exact Nat.le_refl _
  | tail _ hstep ih => exact Nat.le_trans ih (counter_le_of_alloc_step hstep sl)

/-- C7: within a single slot (no intervening `slot_indication`), a successful
HARQ reservation hands out the record's current counter value as the
indicator (first-available, starting from 0 on a fresh record), advances the
counter past it, and any later successful reservation for the same slot after
further allocation-only operations returns a strictly larger indicator, so an
indicator once handed out is never reassigned within the slot. -/
theorem harq_indicator_first_available_monotone (m m1 : pucch_resource_manager)
    (sl : Nat) (c : rnti_t) (cfg : pucch_config) (res : pucch_resource) (i : Nat)
    (h20 : m.resource_slots.length = RES_MANAGER_RING_BUFFER_SIZE)
    (hsucc : get_next_harq_res_available m sl c cfg = (⟨some res, i⟩, m1)) :
    i = (get_slot_resource_counter m sl).next_pucch_harq_res_idx ∧
    (get_slot_resource_counter m1 sl).next_pucch_harq_res_idx = i + 1 ∧
    (∀ m2 m3 : pucch_resource_manager, ∀ c2 : rnti_t, ∀ cfg2 : pucch_config,
      ∀ res2 : pucch_resource, ∀ j : Nat,
      Relation.ReflTransGen alloc_step m1 m2 →
      get_next_harq_res_available m2 sl c2 cfg2 = (⟨some res2, j⟩, m3) → i < j) := by
  have hi := get_next_harq_succ_indicator m sl c cfg res i m1 hsucc
  have hlt :
      (get_slot_resource_counter m sl).next_pucch_harq_res_idx < MAX_HARQ_PUCCH_RESOURCES := by
    by_contra hcon
    rw [get_next_harq_fail_of_max m sl c cfg hcon] at hsucc
    simp at hsucc
  have hcount1 : (get_slot_resource_counter m1 sl).next_pucch_harq_res_idx = i + 1 := by
    cases hres :
        cfg.harq_res_list[(get_slot_resource_counter m sl).next_pucch_harq_res_idx]? with
    | none =>
      rw [get_next_harq_fail_of_cfg m sl c cfg hres] at hsucc
      simp at hsucc
    | some res2 =>
      rw [get_next_harq_succ m sl c cfg res2 hlt hres] at hsucc
      have hm1 := congrArg
        (fun x : pucch_harq_resource_alloc_record × pucch_resource_manager => x.2) hsucc
      dsimp only at hm1
      rw [← hm1, counter_set_cases]
      rw [if_pos ⟨rfl, by rw [h20]; exact Nat.mod_lt _ (by decide)⟩]
      rw [hi]
  refine ⟨hi, hcount1, ?_⟩
  intro m2 m3 c2 cfg2 res2 j htrace hsucc2
  have hj := get_next_harq_succ_indicator m2 sl c2 cfg2 res2 j m3 hsucc2
  have hmono := counter_le_of_alloc_steps htrace sl
  rw [hcount1] at hmono
  omega

/-- Witness for C7: the first reservation at slot 0 from the initial state
returns indicator 0 with the characterisation of the theorem. -/
theorem harq_indicator_first_available_monotone_witness :
    init_manager.resource_slots.length = RES_MANAGER_RING_BUFFER_SIZE ∧
    get_next_harq_res_available init_manager 0 1 sample_cfg =
      (⟨some 100, 0⟩, (get_next_harq_res_available init_manager 0 1 sample_cfg).2) ∧
    (0 = (get_slot_resource_counter init_manager 0).next_pucch_harq_res_idx ∧
    (get_slot_resource_counter
        (get_next_harq_res_available init_manager 0 1 sample_cfg).2
        0).next_pucch_harq_res_idx = 0 + 1 ∧
    (∀ m2 m3 : pucch_resource_manager, ∀ c2 : rnti_t, ∀ cfg2 : pucch_config,
      ∀ res2 : pucch_resource, ∀ j : Nat,
      Relation.ReflTransGen alloc_step
        (get_next_harq_res_available init_manager 0 1 sample_cfg).2 m2 →
      get_next_harq_res_available m2 0 c2 cfg2 = (⟨some res2, j⟩, m3) → 0 < j)) :=
  ⟨by decide, by decide,
   harq_indicator_first_available_monotone init_manager
     (get_next_harq_res_available init_manager 0 1 sample_cfg).2 0 1 sample_cfg 100 0
     (by decide) (by decide)⟩

/-- One state-changing operation of the resource manager: a successful slot
advance, a HARQ reservation, or an SR reservation.  The remaining interface
function, `get_pucch_res_indicator`, is a pure query and does not change
state. -/
inductive mgr_step : pucch_resource_manager → pucch_resource_manager → Prop
  | slot_ind (m m1 : pucch_resource_manager) (sl : Nat) :
      slot_indication m sl = some m1 → mgr_step m m1
  | harq (m : pucch_resource_manager) (sl : Nat) (c : rnti_t) (cfg : pucch_config) :
      mgr_step m (get_next_harq_res_available m sl c cfg).2
  | sr (m : pucch_resource_manager) (sl : Nat) (cfg : pucch_config) :
      mgr_step m (get_next_sr_res_available m sl cfg).2

/-- Manager states reachable from the initial state by any sequence of
operations. -/
def mgr_reachable (m : pucch_resource_manager) : Prop :=
  Relation.ReflTransGen mgr_step init_manager m

/-- Structural well-formedness of one slot record: the HARQ counter is within
the configured maximum and equals the number of stored RNTIs. -/
def slot_record_wf (r : rnti_pucch_res_id_slot_record) : Prop :=
  r.next_pucch_harq_res_idx ≤ MAX_HARQ_PUCCH_RESOURCES ∧
  r.rnti_records.length = r.next_pucch_harq_res_idx

/-- Well-formedness of a manager state: the ring buffer keeps its fixed size
and every slot record is well-formed. -/
def mgr_wf (m : pucch_resource_manager) : Prop :=
  m.resource_slots.length = RES_MANAGER_RING_BUFFER_SIZE ∧
  ∀ r ∈ m.resource_slots, slot_record_wf r

theorem reset_from_length (slots : List rnti_pucch_res_id_slot_record) (last n : Nat) :
    (reset_from slots last n).length = slots.length := by
  induction n with
  | zero => rfl
  | succ n ih =>
    show ((reset_from slots last n).set _ _).length = _
    rw [List.length_set, ih]

theorem reset_from_mem {slots : List rnti_pucch_res_id_slot_record} {last n : Nat}
    {r : rnti_pucch_res_id_slot_record} (h : r ∈ reset_from slots last n) :
    r ∈ slots ∨ r = ({} : rnti_pucch_res_id_slot_record) := by
  induction n with
  | zero => exact Or.inl h
  | succ n ih =>
    have h1 : r ∈ (reset_from slots last n).set
        ((last + (n + 1)) % RES_MANAGER_RING_BUFFER_SIZE) {} := h
    rcases List.mem_or_eq_of_mem_set h1 with h2 | h2
    · exact ih h2
    · exact Or.inr h2

/-- In a well-formed manager, the record read for any slot is well-formed. -/
theorem slot_record_wf_counter {m : pucch_resource_manager} (hwf : mgr_wf m) (sl : Nat) :
    slot_record_wf (get_slot_resource_counter m sl) := by
  unfold get_slot_resource_counter
  rcases Nat.lt_or_ge (sl % RES_MANAGER_RING_BUFFER_SIZE) m.resource_slots.length with hb | hb
  · rw [List.getD_eq_getElem?_getD, List.getElem?_eq_getElem hb, Option.getD_some]
    exact hwf.2 _ (List.getElem_mem hb)
  · rw [List.getD_eq_getElem?_getD, List.getElem?_eq_none hb, Option.getD_none]
    exact ⟨by decide, rfl⟩

/-- Every resource manager operation preserves well-formedness. -/
theorem mgr_wf_step {m m1 : pucch_resource_manager} (h : mgr_step m m1) (hwf : mgr_wf m) :
    mgr_wf m1 := by
  cases h with
  | slot_ind m1 sl heq =>
    unfold slot_indication at heq
    split at heq
    · exact absurd heq (by simp)
    · injection heq with heq1
      rw [← heq1]
      refine ⟨?_, ?_⟩
      · show (reset_from m.resource_slots m.last_sl_ind _).length = _
        rw [reset_from_length]
        exact hwf.1
      · intro r hr
        rcases reset_from_mem hr with h1 | h1
        · exact hwf.2 r h1
        · rw [h1]
          exact ⟨by decide, rfl⟩
  | harq sl c cfg =>
    by_cases hlt :
        (get_slot_resource_counter m sl).next_pucch_harq_res_idx < MAX_HARQ_PUCCH_RESOURCES
    · cases hres :
          cfg.harq_res_list[(get_slot_resource_counter m sl).next_pucch_harq_res_idx]? with
      | none =>
        rw [get_next_harq_fail_of_cfg m sl c cfg hres]
        exact hwf
      | some res =>
        rw [get_next_harq_succ m sl c cfg res hlt hres]
        have hwfr := slot_record_wf_counter hwf sl
        refine ⟨?_, ?_⟩
        · show (m.resource_slots.set _ _).length = _
          rw [List.length_set]
          exact hwf.1
        · intro r hr
          have hr1 : r ∈ m.resource_slots.set (sl % RES_MANAGER_RING_BUFFER_SIZE)
              ⟨(get_slot_resource_counter m sl).sr_resource_available,
               (get_slot_resource_counter m sl).next_pucch_harq_res_idx + 1,
               (get_slot_resource_counter m sl).rnti_records ++ [c]⟩ := hr
          rcases List.mem_or_eq_of_mem_set hr1 with h1 | h1
          · exact hwf.2 r h1
          · rw [h1]
            refine ⟨Nat.succ_le_of_lt hlt, ?_⟩
            show ((get_slot_resource_counter m sl).rnti_records ++ [c]).length = _
            simp [List.length_append, hwfr.2]
    · rw [get_next_harq_fail_of_max m sl c cfg hlt]
      exact hwf
  | sr sl cfg =>
    cases hav : (get_slot_resource_counter m sl).sr_resource_available with
    | false =>
      rw [get_next_sr_fail m sl cfg hav]
      exact hwf
    | true =>
      rw [get_next_sr_succ m sl cfg hav]
      have hwfr := slot_record_wf_counter hwf sl
      refine ⟨?_, ?_⟩
      · show (m.resource_slots.set _ _).length = _
        rw [List.length_set]
        exact hwf.1
      · intro r hr
        have hr1 : r ∈ m.resource_slots.set (sl % RES_MANAGER_RING_BUFFER_SIZE)
            ⟨false, (get_slot_resource_counter m sl).next_pucch_harq_res_idx,
             (get_slot_resource_counter m sl).rnti_records⟩ := hr
        rcases List.mem_or_eq_of_mem_set hr1 with h1 | h1
        · exact hwf.2 r h1
        · rw [h1]
          exact ⟨hwfr.1, hwfr.2⟩

/-- Every reachable manager state is well-formed. -/
theorem mgr_wf_of_reachable (m : pucch_resource_manager) (hm : mgr_reachable m) :
    mgr_wf m := by
  have hm1 : Relation.ReflTransGen mgr_step init_manager m := hm
  clear hm
  induction hm1 with
  | refl =>
    refine ⟨by decide, ?_⟩
    intro r hr
    have hr1 : r ∈ List.replicate RES_MANAGER_RING_BUFFER_SIZE
        ({} : rnti_pucch_res_id_slot_record) := hr
    rw [List.eq_of_mem_replicate hr1]
    exact ⟨by decide, rfl⟩
  | tail _ hstep ih => exact mgr_wf_step hstep ih

/-- Terminal `c` holds the (slot, acknowledgement-resource-indicator) pair
`(sl, ari)` in manager state `m`: the slot record's RNTI list stores `c` at
position `ari`. -/
def holds_ari (m : pucch_resource_manager) (sl ari : Nat) (c : rnti_t) : Prop :=
  (get_slot_resource_counter m sl).rnti_records[ari]? = some c

/-- C1: in every reachable resource manager state, at most one RNTI holds a
given (slot, acknowledgement-resource-indicator) pair, and every slot
record's acknowledgement counter is at most `MAX_HARQ_PUCCH_RESOURCES`; the
reachability induction shows this invariant is preserved by every operation
(`slot_indication`, `get_next_harq_res_available`, `get_next_sr_res_available`,
and the pure query `get_pucch_res_indicator`). -/
theorem reachable_unique_holder_and_counter_bound (m : pucch_resource_manager)
    (hm : mgr_reachable m) :
    (∀ sl ari : Nat, ∀ c1 c2 : rnti_t,
      holds_ari m sl ari c1 → holds_ari m sl ari c2 → c1 = c2) ∧
    (∀ sl : Nat,
      (get_slot_resource_counter m sl).next_pucch_harq_res_idx ≤
        MAX_HARQ_PUCCH_RESOURCES) := by
  have hwf := mgr_wf_of_reachable m hm
  constructor
  · intro sl ari c1 c2 h1 h2
    unfold holds_ari at h1 h2
    rw [h1] at h2
    injection h2
  · intro sl
    exact (slot_record_wf_counter hwf sl).1

/-- Witness for C1 at the (trivially reachable) initial state. -/
theorem reachable_unique_holder_and_counter_bound_witness :
    mgr_reachable init_manager ∧
    ((∀ sl ari : Nat, ∀ c1 c2 : rnti_t,
      holds_ari init_manager sl ari c1 → holds_ari init_manager sl ari c2 → c1 = c2) ∧
    (∀ sl : Nat,
      (get_slot_resource_counter init_manager sl).next_pucch_harq_res_idx ≤
        MAX_HARQ_PUCCH_RESOURCES)) :=
  ⟨Relation.ReflTransGen.refl,
   reachable_unique_holder_and_counter_bound init_manager Relation.ReflTransGen.refl⟩

/-- C10: in every reachable resource manager state, each ring record's
`next_pucch_harq_res_idx` equals the length of its `rnti_records` list, both
bounded by 8, and a freshly constructed or reset record has
`sr_resource_available = true`, `next_pucch_harq_res_idx = 0` and an empty
RNTI list; the reachability induction shows every operation preserves this
coupling. -/
theorem reachable_counter_matches_records_and_fresh_defaults
    (m : pucch_resource_manager) (hm : mgr_reachable m) :
    (∀ sl : Nat,
      (get_slot_resource_counter m sl).rnti_records.length =
        (get_slot_resource_counter m sl).next_pucch_harq_res_idx ∧
      (get_slot_resource_counter m sl).next_pucch_harq_res_idx ≤
        MAX_HARQ_PUCCH_RESOURCES ∧
      (get_slot_resource_counter m sl).rnti_records.length ≤
        MAX_HARQ_PUCCH_RESOURCES) ∧
    ({} : rnti_pucch_res_id_slot_record).sr_resource_available = true ∧
    ({} : rnti_pucch_res_id_slot_record).next_pucch_harq_res_idx = 0 ∧
    ({} : rnti_pucch_res_id_slot_record).rnti_records = [] := by
  have hwf := mgr_wf_of_reachable m hm
  refine ⟨?_, rfl, rfl, rfl⟩
  intro sl
  have hr := slot_record_wf_counter hwf sl
  refine ⟨hr.2, hr.1, ?_⟩
  rw [hr.2]
  exact hr.1

/-- Witness for C10 at the (trivially reachable) initial state. -/
theorem reachable_counter_matches_records_and_fresh_defaults_witness :
    mgr_reachable init_manager ∧
    ((∀ sl : Nat,
      (get_slot_resource_counter init_manager sl).rnti_records.length =
        (get_slot_resource_counter init_manager sl).next_pucch_harq_res_idx ∧
      (get_slot_resource_counter init_manager sl).next_pucch_harq_res_idx ≤
        MAX_HARQ_PUCCH_RESOURCES ∧
      (get_slot_resource_counter init_manager sl).rnti_records.length ≤
        MAX_HARQ_PUCCH_RESOURCES) ∧
    ({} : rnti_pucch_res_id_slot_record).sr_resource_available = true ∧
    ({} : rnti_pucch_res_id_slot_record).next_pucch_harq_res_idx = 0 ∧
    ({} : rnti_pucch_res_id_slot_record).rnti_records = []) :=
  ⟨Relation.ReflTransGen.refl,
   reachable_counter_matches_records_and_fresh_defaults init_manager
     Relation.ReflTransGen.refl⟩

/-- If some slot in the (exclusive, inclusive] advance range maps to ring
position `p`, the position is empty after the range is reset. -/
theorem reset_from_getD_reset (slots : List rnti_pucch_res_id_slot_record)
    (last n p : Nat) (hb : p < slots.length)
    (hk : ∃ k, 1 ≤ k ∧ k ≤ n ∧ (last + k) % RES_MANAGER_RING_BUFFER_SIZE = p) :
    (reset_from slots last n).getD p {} = {} := by
  induction n with
  | zero =>
    obtain ⟨k, hk1, hk2, _⟩ := hk
    omega
  | succ n ih =>
    obtain ⟨k, hk1, hk2, hk3⟩ := hk
    show ((reset_from slots last n).set
      ((last + (n + 1)) % RES_MANAGER_RING_BUFFER_SIZE) {}).getD p {} = {}
    by_cases hp : (last + (n + 1)) % RES_MANAGER_RING_BUFFER_SIZE = p
    · rw [hp]
      exact list_getD_set_self _ _ _ _ (by rw [reset_from_length]; exact hb)
    · rw [list_getD_set_ne _ _ _ _ _ hp]
      apply ih
      refine ⟨k, hk1, ?_, hk3⟩
      rcases Nat.lt_or_ge k (n + 1) with h | h
      · omega
      · exfalso
        have hkn : k = n + 1 := by omega
        rw [hkn] at hk3
        exact hp hk3

/-- After a successful `slot_indication` whose advance range covers a slot
congruent to `s` modulo the ring size, the record for slot `s` is empty. -/
theorem counter_reset_after_slot_indication (m m1 : pucch_resource_manager)
    (new s t : Nat) (hadv : slot_indication m new = some m1)
    (ht1 : m.last_sl_ind < t) (ht2 : t ≤ new)
    (hmod : t % RES_MANAGER_RING_BUFFER_SIZE = s % RES_MANAGER_RING_BUFFER_SIZE)
    (hb : s % RES_MANAGER_RING_BUFFER_SIZE < m.resource_slots.length) :
    get_slot_resource_counter m1 s = {} := by
  unfold slot_indication at hadv
  split at hadv
  · exact absurd hadv (by simp)
  · injection hadv with hadv1
    rw [← hadv1]
    unfold get_slot_resource_counter
    show (reset_from m.resource_slots m.last_sl_ind (new - m.last_sl_ind)).getD _ _ = _
    apply reset_from_getD_reset m.resource_slots m.last_sl_ind (new - m.last_sl_ind) _ hb
    exact ⟨t - m.last_sl_ind, by omega, by omega,
      by rw [Nat.add_sub_cancel' (Nat.le_of_lt ht1)]; exact hmod⟩

/-- The ring-size boundary scenario of the spec: reserve a HARQ resource for
terminal 1 at slot 5 from the initial state, then advance through slots
1, 2, ..., 24 one at a time. -/
def scenario_after_advancing : Option pucch_resource_manager :=
  advance_through (get_next_harq_res_available init_manager 5 1 sample_cfg).2
    ((List.range 24).map (fun k => k + 1))

/-- C2: after a successful advance whose target slot lies at or beyond
`s + RES_MANAGER_RING_BUFFER_SIZE` (with the previous slot still before that
boundary), the Reservation Record for slot `s` is fully reset; concretely,
with ring size 20, after reserving a HARQ resource for terminal 1 at slot 5
and advancing one slot at a time up to slot 24, the slot-5 reservation is
gone and a new reservation for terminal 2 at slot 25 (the same ring
position) succeeds with indicator 0. -/
theorem record_empty_after_advance_passes_ring (m m1 : pucch_resource_manager)
    (new s : Nat)
    (h20 : m.resource_slots.length = RES_MANAGER_RING_BUFFER_SIZE)
    (hlast : m.last_sl_ind < s + RES_MANAGER_RING_BUFFER_SIZE)
    (hnew : s + RES_MANAGER_RING_BUFFER_SIZE ≤ new)
    (hadv : slot_indication m new = some m1) :
    get_slot_resource_counter m1 s = ({} : rnti_pucch_res_id_slot_record) ∧
    (scenario_after_advancing.isSome = true ∧
     get_slot_resource_counter (scenario_after_advancing.getD init_manager) 5 =
       ({} : rnti_pucch_res_id_slot_record) ∧
     (get_next_harq_res_available (scenario_after_advancing.getD init_manager) 25 2
       sample_cfg).1 = ⟨some 100, 0⟩) := by
  constructor
  · apply counter_reset_after_slot_indication m m1 new s
      (s + RES_MANAGER_RING_BUFFER_SIZE) hadv hlast hnew
    · show (s + 20) % 20 = s % 20
      exact Nat.add_mod_right s 20
    · rw [h20]
      exact Nat.mod_lt _ (by decide)
  · exact ⟨by decide, by decide, by decide⟩

/-- Witness for C2: advancing the fresh manager straight to slot 20 resets
the record of slot 0 (ring position 0), alongside the closed scenario. -/
theorem record_empty_after_advance_passes_ring_witness :
    init_manager.resource_slots.length = RES_MANAGER_RING_BUFFER_SIZE ∧
    init_manager.last_sl_ind < 0 + RES_MANAGER_RING_BUFFER_SIZE ∧
    0 + RES_MANAGER_RING_BUFFER_SIZE ≤ 20 ∧
    slot_indication init_manager 20 =
      some ((slot_indication init_manager 20).getD init_manager) ∧
    (get_slot_resource_counter ((slot_indication init_manager 20).getD init_manager) 0 =
       ({} : rnti_pucch_res_id_slot_record) ∧
     (scenario_after_advancing.isSome = true ∧
      get_slot_resource_counter (scenario_after_advancing.getD init_manager) 5 =
        ({} : rnti_pucch_res_id_slot_record) ∧
      (get_next_harq_res_available (scenario_after_advancing.getD init_manager) 25 2
        sample_cfg).1 = ⟨some 100, 0⟩)) :=
  ⟨by decide, by decide, by decide, by decide,
   record_empty_after_advance_passes_ring init_manager
     ((slot_indication init_manager 20).getD init_manager) 20 0
     (by decide) (by decide) (by decide) (by decide)⟩

/-- Witness for C5: concrete allocation and removal for RNTI 1 at slot 4 on
an empty grid. -/
theorem harq_alloc_then_remove_round_trip_witness :
    (∀ g ∈ ([] : pucch_grid), g.crnti ≠ 1) ∧
    alloc_ded_pucch_harq_ack_ue [] init_manager 4 1 sample_cfg =
      (some 100, [⟨1, 100, 1, 0⟩],
       (get_next_harq_res_available init_manager 4 1 sample_cfg).2) ∧
    (remove_ue_uci_from_pucch [⟨1, 100, 1, 0⟩] 1).2 = ⟨1, 0⟩ ∧
    (∀ g ∈ (remove_ue_uci_from_pucch [⟨1, 100, 1, 0⟩] 1).1, g.crnti ≠ 1) ∧
    (remove_ue_uci_from_pucch [⟨1, 100, 1, 0⟩] 1).1 = [] := by
  refine ⟨by simp, by decide, ?_⟩
  exact harq_alloc_then_remove_round_trip [] init_manager
    (get_next_harq_res_available init_manager 4 1 sample_cfg).2 4 1 sample_cfg 100
    [⟨1, 100, 1, 0⟩] (by simp) (by decide)

end srsgnb
